import Mathlib

/-!
Verification of the STEMPath skill-gap application (src/app.py) against its
natural-language specification.  The Python code is shallowly embedded: string
primitives (strip, lower, substring membership, comma splitting) are modelled
on the character-list representation of strings, Python numbers are modelled
by Nat, Int and Rat, and the session-backed routes become explicit functions
from state to state plus outcome.
-/

/-- Model of Python str.strip on character lists: drop whitespace from both ends. -/
def pystrip (l : List Char) : List Char :=
  ((l.dropWhile Char.isWhitespace).reverse.dropWhile Char.isWhitespace).reverse

/-- Model of Python str.strip on strings. -/
def pyStrip (s : String) : String :=
  String.mk (pystrip s.data)

/-- Model of Python str.lower on strings (ASCII case folding, as used by the data here). -/
def pyLower (s : String) : String :=
  String.mk (s.data.map Char.toLower)

/-- The normalize_skill helper of app.py: s.strip().lower(). -/
def normalize_skill (s : String) : String :=
  pyLower (pyStrip s)

/-- Helper for substring membership: does the needle occur contiguously in the haystack? -/
def strContainsAux (n : List Char) : List Char → Bool
  | [] => n.isEmpty
  | c :: t => n.isPrefixOf (c :: t) || strContainsAux n t

/-- Model of the Python expression needle in haystack for strings. -/
def pyIn (needle hay : String) : Bool :=
  strContainsAux needle.data hay.data

/-- Model of the Python expression int(round(num / den)) for nonnegative
integers num and den with den positive: the exact rational num / den rounded
half to even, which is the rounding CPython round performs. -/
def pyRoundDiv (num den : ℕ) : ℕ :=
  let q := num / den
  let r := num % den
  if 2 * r < den then q
  else if den < 2 * r then q + 1
  else if q % 2 = 0 then q else q + 1

/-- Result of the skill gap calculation in the results route of app.py. -/
structure EvalResult where
  missing : List String
  match_score : ℕ
deriving DecidableEq, Repr

/-- The skill gap calculation of app.py lines 150-161: normalize the user skills
into a set, normalize the role top skills in order, collect the role
skills whose normalized form is absent from the normalized user set, and score
by int(round((have_count / role_total) * 100)) with a division-by-zero guard.
The score is the exact rational (have_count * 100) / role_total rounded half
to even, via pyRoundDiv. -/
def evaluate (user_skills role_top_skills : List String) : EvalResult :=
  let user_skills_norm := user_skills.map normalize_skill
  let role_skills_norm := role_top_skills.map normalize_skill
  let missing_skills :=
    (role_top_skills.zip role_skills_norm).filterMap
      (fun p => if user_skills_norm.contains p.2 then none else some p.1)
  let role_total : Nat := max role_top_skills.length 1
  let have_count : Nat := role_total - missing_skills.length
  { missing := missing_skills
    match_score := pyRoundDiv (have_count * 100) role_total }

example : evaluate ["sql", " excel "] ["SQL", "Excel", "Python"] =
    { missing := ["Python"], match_score := 67 } := by decide

example : evaluate [] [] = { missing := [], match_score := 100 } := by decide

/-- A validated role record, with the five required fields of the catalog. -/
structure Role where
  id : String
  title : String
  category : String
  description : String
  top_skills : List String
deriving DecidableEq, Repr

/-- The find_role_by_id helper of app.py: first record with the given id, if any. -/
def find_role_by_id (role_id : String) (roles : List Role) : Option Role :=
  roles.find? (fun r => r.id == role_id)

/-- The filtering loop of the roles route, app.py lines 89-105: the raw query
and category are stripped and lowercased; a role passes when the query is
empty or occurs in the lowercased title, description or some lowercased skill,
and when the category is empty or equals the lowercased role category. -/
def filter_roles (roles_catalog : List Role) (q cat : String) : List Role :=
  let query := pyLower (pyStrip q)
  let category := pyLower (pyStrip cat)
  roles_catalog.filter (fun r =>
    (query == "" || pyIn query (pyLower r.title) || pyIn query (pyLower r.description)
      || r.top_skills.any (fun sk => pyIn query (pyLower sk)))
    && (category == "" || category == pyLower r.category))

/-- An entry of the static certification library of app.py. -/
structure Cert where
  name : String
  provider : String
  level : String
  skills : List String
  tags : List String
  link : String
deriving DecidableEq, Repr

/-- The CERT_LIBRARY constant of app.py lines 166-215. -/
def CERT_LIBRARY : List Cert :=
  [ { name := "Google Data Analytics Professional Certificate", provider := "Coursera",
      level := "Beginner–Intermediate", skills := ["SQL", "Data Visualization", "Spreadsheets"],
      tags := ["data", "analytics"], link := "" },
    { name := "IBM Data Science Professional Certificate", provider := "Coursera",
      level := "Intermediate", skills := ["Python", "Machine Learning", "Data Analysis"],
      tags := ["data", "software"], link := "" },
    { name := "Microsoft Azure Fundamentals (AZ-900)", provider := "Microsoft",
      level := "Beginner", skills := ["Cloud", "Networking", "Security Basics"],
      tags := ["it", "security", "software"], link := "" },
    { name := "CompTIA Security+", provider := "CompTIA",
      level := "Intermediate", skills := ["Security Basics", "Networking", "Incident Response"],
      tags := ["security"], link := "" },
    { name := "AWS Certified Cloud Practitioner", provider := "AWS",
      level := "Beginner", skills := ["Cloud", "Networking", "Security Basics"],
      tags := ["it", "software"], link := "" },
    { name := "Google Project Management Professional Certificate", provider := "Coursera",
      level := "Beginner–Intermediate", skills := ["Project Management", "Communication", "Teamwork"],
      tags := ["business", "software", "healthcare", "science"], link := "" } ]

/-- A recommended certification as assembled by the results route. -/
structure RecCert where
  name : String
  provider : String
  level : String
  skills : List String
  reason : String
  link : String
deriving DecidableEq, Repr

/-- The inclusion test of the certification loop, app.py lines 222-226: the
normalized cert skills meet the missing set, or the role category tag occurs
among the lowercased tags. -/
def cert_qualifies (role_category_tag : String) (missing_norm : List String) (cert : Cert) : Bool :=
  let cert_skill_norm := cert.skills.map normalize_skill
  let covers_gap := cert_skill_norm.any (fun s => missing_norm.contains s)
  let category_match := (cert.tags.map pyLower).contains role_category_tag
  covers_gap || category_match

/-- Assembly of one recommended certification, app.py lines 227-240, with the
reason string built from the first three covered skills when the intersection
with the missing set is nonempty, else from the raw role category.  The
covered list keeps the order of missing_norm, the insertion order of the
normalized missing set. -/
def mk_recommended_cert (role_category : String) (missing_norm : List String) (cert : Cert) :
    RecCert :=
  let cert_skill_norm := cert.skills.map normalize_skill
  let covered := missing_norm.filter (fun s => cert_skill_norm.contains s)
  let reason :=
    if covered ≠ [] then
      "Recommended because it helps you build: " ++ String.intercalate ", " (covered.take 3) ++ "."
    else
      "Recommended based on your target role in " ++ role_category ++ "."
  { name := cert.name, provider := cert.provider, level := cert.level,
    skills := cert.skills, reason := reason, link := cert.link }

/-- The certification recommendation computation of app.py lines 217-242,
parametrized by the library so the spec statement ranges over library states.
The missing set is modelled as the normalized missing list with duplicates
removed in first-occurrence order; only membership and covered-intersection
contents depend on it. -/
def recommended_certs (lib : List Cert) (role_category : String) (missing_skills : List String) :
    List RecCert :=
  let role_category_tag := pyLower (pyStrip role_category)
  let missing_norm := (missing_skills.map normalize_skill).dedup
  (lib.filterMap (fun cert =>
    if cert_qualifies role_category_tag missing_norm cert then
      some (mk_recommended_cert role_category missing_norm cert)
    else none)).take 4

/-- A learning resource stub of the learning path loop. -/
structure LearnRec where
  title : String
  provider : String
  skill : String
  format : String
  link : String
deriving DecidableEq, Repr

/-- The learning path computation of app.py lines 247-255: one stub per
missing skill, for the first four missing skills. -/
def recommended_learning (missing_skills : List String) : List LearnRec :=
  (missing_skills.take 4).map (fun skill =>
    { title := skill ++ " Fundamentals", provider := "edX", skill := skill,
      format := "Course", link := "" })

/-- A stored user profile: the session value written by the profile route. -/
structure Profile where
  degree : String
  location : String
  user_skills : List String
deriving DecidableEq, Repr

/-- A synthesized job listing stub. -/
structure JobListing where
  title : String
  company : String
  location : String
  skills : List String
  link : String
deriving DecidableEq, Repr

/-- The job listing synthesis of app.py lines 260-283: the location falls back
to Remote when the stored location is empty, mirroring the or-fallback on the
falsy empty string; the slices are top_skills with Python slices 0:4, 1:5, 0:3. -/
def job_listings (role : Role) (profile_data : Profile) : List JobListing :=
  let location := if profile_data.location = "" then "Remote" else profile_data.location
  [ { title := role.title ++ " (Entry-Level)", company := "Sample Company A",
      location := location, skills := role.top_skills.take 4, link := "" },
    { title := "Junior " ++ role.title, company := "Sample Company B",
      location := location, skills := (role.top_skills.drop 1).take 4, link := "" },
    { title := role.title ++ " Intern", company := "Sample Company C",
      location := "Remote", skills := role.top_skills.take 3, link := "" } ]

/-- The results object assembled at app.py lines 288-299. -/
structure ResultsObj where
  degree : String
  location : String
  user_skills : List String
  selected_role : String
  top_skills_in_jobs : List String
  missing_skills : List String
  match_score : ℕ
  recommended_certs : List RecCert
  recommended_learning : List LearnRec
  job_listings : List JobListing
deriving DecidableEq, Repr

/-- The whole computation of the results route once a profile and a resolved
role are at hand, app.py lines 147-299. -/
def results_obj (profile_data : Profile) (role : Role) : ResultsObj :=
  let ev := evaluate profile_data.user_skills role.top_skills
  { degree := profile_data.degree
    location := profile_data.location
    user_skills := profile_data.user_skills
    selected_role := role.title
    top_skills_in_jobs := role.top_skills
    missing_skills := ev.missing
    match_score := ev.match_score
    recommended_certs := recommended_certs CERT_LIBRARY role.category ev.missing
    recommended_learning := recommended_learning ev.missing
    job_listings := job_listings role profile_data }

/-- Session state: the stored profile and the selected role id, as kept in the
per-user session of app.py. -/
structure SessionState where
  profile : Option Profile
  selected_role_id : Option String
deriving DecidableEq, Repr

/-- Redirect targets of the routes. -/
inductive Target where
  | homePage
  | profilePage
  | rolesPage
  | resultsPage
deriving DecidableEq, Repr

/-- Outcome of a route: a redirect or a rendered view carrying its data. -/
inductive Outcome (α : Type) where
  | redirect : Target → Outcome α
  | rendered : α → Outcome α
deriving DecidableEq, Repr

/-- The results route of app.py lines 131-301 as a state transformer: missing
profile or selection redirect without touching state; a selected id that no
longer resolves is popped from the session and the route redirects to the
roles page; otherwise the results object is rendered.  A falsy empty string
selection redirects like a missing one, mirroring the truthiness test. -/
def results_route (s : SessionState) (roles_catalog : List Role) :
    Outcome ResultsObj × SessionState :=
  match s.profile with
  | none => (.redirect .profilePage, s)
  | some profile_data =>
    match s.selected_role_id with
    | none => (.redirect .rolesPage, s)
    | some rid =>
      if rid = "" then (.redirect .rolesPage, s)
      else
        match find_role_by_id rid roles_catalog with
        | none => (.redirect .rolesPage, { s with selected_role_id := none })
        | some role => (.rendered (results_obj profile_data role), s)

/-- The comma splitting of Python str.split on a single comma separator. -/
def pySplitComma (l : List Char) : List (List Char) :=
  match l with
  | [] => [[]]
  | c :: t =>
    if c = ',' then [] :: pySplitComma t
    else
      match pySplitComma t with
      | [] => [[c]]
      | h :: r => (c :: h) :: r

/-- The submitted profile form fields. -/
structure FormData where
  degree : String
  location : String
  skills : String
deriving DecidableEq, Repr

/-- The POST branch of the profile route, app.py lines 61-72: fields are
stripped, the skills field is split on commas, each piece stripped, empty
pieces dropped, and the session profile replaced. -/
def submit_profile (form : FormData) (s : SessionState) : SessionState :=
  let degree := pyStrip form.degree
  let location := pyStrip form.location
  let skills_raw := pyStrip form.skills
  let user_skills :=
    (pySplitComma skills_raw.data).filterMap (fun piece =>
      if pystrip piece = [] then none else some (String.mk (pystrip piece)))
  { s with profile := some { degree := degree, location := location, user_skills := user_skills } }

/-- A structured value of the parsed catalog file, enough to express the
validation performed by load_roles: strings, arrays, numbers. -/
inductive JVal where
  | jstr : String → JVal
  | jarr : List JVal → JVal
  | jnum : Int → JVal

/-- A raw catalog record: a parsed object, as a key-value association list. -/
abbrev RawRole := List (String × JVal)

/-- Lookup of a key in a raw record, modelling Python dict access. -/
def RawRole.getVal (r : RawRole) (k : String) : Option JVal :=
  (r.find? (fun p => p.1 == k)).map Prod.snd

/-- The required keys of the validation in load_roles. -/
def required_keys : List String :=
  ["id", "title", "category", "description", "top_skills"]

/-- Does the record lack some required key, the nonemptiness test of the set
difference required_keys - keys in load_roles? -/
def RawRole.lacksRequired (r : RawRole) : Bool :=
  required_keys.any (fun k => !((r.map Prod.fst).contains k))

/-- Is the top_skills value of the record not a list, the negated isinstance
test of load_roles?  Reached by the code only when all required keys exist. -/
def RawRole.badTopSkills (r : RawRole) : Bool :=
  match r.getVal "top_skills" with
  | some (.jarr _) => false
  | _ => true

/-- The id value interpolated into a validation message: the id entry of the
record, or the UNKNOWN placeholder used by dict.get in load_roles. -/
def RawRole.errId (r : RawRole) : JVal :=
  (r.getVal "id").getD (.jstr "UNKNOWN")

/-- The two fatal load-time failures of load_roles. -/
inductive LoadError where
  | fileNotFound
  | validationError : JVal → LoadError

/-- The per-record check of the validation loop in load_roles: a record with a
lacking key fails first, then a non-list top_skills value fails, each error
carrying the record id. -/
def checkRole (r : RawRole) : Option LoadError :=
  if r.lacksRequired then some (.validationError r.errId)
  else if r.badTopSkills then some (.validationError r.errId)
  else none

/-- The load_roles function of app.py lines 17-40 over an abstract backing
store: an absent store is the FileNotFoundError raise; otherwise the
validation loop raises at the first offending record, and the full record
list is returned when every record validates. -/
def load_roles (store : Option (List RawRole)) : Except LoadError (List RawRole) :=
  match store with
  | none => .error .fileNotFound
  | some roles =>
    match roles.findSome? checkRole with
    | some e => .error e
    | none => .ok roles

/-! Helper lemmas about the rounding primitive. -/

theorem pyRoundDiv_le_of_lt_half {num den k : ℕ} (hd : 0 < den)
    (h : 2 * num < den * (2 * k + 1)) : pyRoundDiv num den ≤ k := by
  simp only [pyRoundDiv]
  have hdm := Nat.div_add_mod num den
  have hrlt : num % den < den := Nat.mod_lt _ hd
  split_ifs with h1 h2 h3
  · -- fractional part below one half: the result is the floor
    have hle : den * (2 * (num / den)) ≤ 2 * num := by
      have : den * (num / den) ≤ num := by omega
      calc den * (2 * (num / den)) = 2 * (den * (num / den)) := by ring
        _ ≤ 2 * num := by omega
    have := Nat.lt_of_mul_lt_mul_left (lt_of_le_of_lt hle h)
    omega
  all_goals {
    -- fractional part at least one half: den ≤ 2 * (num % den)
    have hup : den * (2 * (num / den) + 1) ≤ 2 * num := by
      have : den * (num / den) ≤ num := by omega
      calc den * (2 * (num / den) + 1) = 2 * (den * (num / den)) + den := by ring
        _ ≤ 2 * (den * (num / den)) + 2 * (num % den) := by omega
        _ = 2 * num := by omega
    have := Nat.lt_of_mul_lt_mul_left (lt_of_le_of_lt hup h)
    omega }

theorem pyRoundDiv_ge_of_gt_half {num den k : ℕ} (hd : 0 < den)
    (h : den * (2 * k + 1) < 2 * num) : k + 1 ≤ pyRoundDiv num den := by
  simp only [pyRoundDiv]
  have hdm := Nat.div_add_mod num den
  have hrlt : num % den < den := Nat.mod_lt _ hd
  have hdown : 2 * (num % den) ≤ den → k + 1 ≤ num / den := by
    intro hhalf
    have hub : 2 * num ≤ den * (2 * (num / den) + 1) := by
      calc 2 * num = 2 * (den * (num / den)) + 2 * (num % den) := by omega
        _ ≤ 2 * (den * (num / den)) + den := by omega
        _ = den * (2 * (num / den) + 1) := by ring
    have := Nat.lt_of_mul_lt_mul_left (lt_of_lt_of_le h hub)
    omega
  have hweak : k ≤ num / den := by
    have hub : 2 * num ≤ den * (2 * (num / den) + 2) := by
      calc 2 * num = 2 * (den * (num / den)) + 2 * (num % den) := by omega
        _ ≤ 2 * (den * (num / den)) + 2 * den := by omega
        _ = den * (2 * (num / den) + 2) := by ring
    have := Nat.lt_of_mul_lt_mul_left (lt_of_lt_of_le h hub)
    omega
  split_ifs with h1 h2 h3
  · exact hdown (by omega)
  · omega
  · exact hdown (by omega)
  · omega

theorem pyRoundDiv_le {num den k : ℕ} (hd : 0 < den) (h : num ≤ k * den) :
    pyRoundDiv num den ≤ k := by
  refine pyRoundDiv_le_of_lt_half hd ?_
  calc 2 * num ≤ 2 * (k * den) := by omega
    _ < den * (2 * k + 1) := by have := hd; nlinarith

theorem pyRoundDiv_mul_self {den k : ℕ} (hd : 0 < den) :
    pyRoundDiv (k * den) den = k := by
  simp only [pyRoundDiv]
  have hmod : k * den % den = 0 := Nat.mul_mod_left k den
  have hdiv : k * den / den = k := Nat.mul_div_cancel k hd
  simp [hmod, hdiv, hd]

/-! Helper lemmas about lists. -/

theorem zip_map_filterMap {α β : Type _} (l : List α) (f : α → β) (g : β → Bool) :
    ((l.zip (l.map f)).filterMap (fun p => if g p.2 then none else some p.1))
      = l.filter (fun a => !g (f a)) := by
  induction l with
  | nil => rfl
  | cons a t ih =>
    simp only [List.map_cons, List.zip_cons_cons, List.filterMap_cons, List.filter_cons]
    cases hg : g (f a) <;> simp [hg, ih]

theorem filterMap_guard {α β : Type _} (l : List α) (p : α → Bool) (g : α → β) :
    (l.filterMap fun a => if p a then some (g a) else none) = (l.filter p).map g := by
  induction l with
  | nil => rfl
  | cons a t ih =>
    cases hp : p a <;> simp [List.filterMap_cons, List.filter_cons, hp, ih]

theorem contains_map_dedup (u : List String) (f : String → String) (x : String) :
    ((u.dedup).map f).contains x = ((u.map f)).contains x := by
  rw [Bool.eq_iff_iff]
  simp [List.contains, List.elem_iff, List.mem_map, List.mem_dedup]

/-- The missing list of the evaluator is the sequence of role skills, in role
order and original spelling, whose normalized form the normalized user skill
collection lacks. -/
theorem evaluate_missing_eq (user role : List String) :
    (evaluate user role).missing
      = role.filter (fun s => !((user.map normalize_skill).contains (normalize_skill s))) := by
  simp only [evaluate]
  exact zip_map_filterMap role normalize_skill _

theorem evaluate_score_eq (user role : List String) :
    (evaluate user role).match_score
      = pyRoundDiv ((max role.length 1 - (evaluate user role).missing.length) * 100)
          (max role.length 1) := by
  simp only [evaluate]

theorem contains_eq_true_iff_mem (l : List String) (x : String) :
    l.contains x = true ↔ x ∈ l := by
  simp [List.contains, List.elem_iff]

/-- The number of missing skills is zero exactly when every normalized role
skill occurs among the normalized user skills. -/
theorem missing_len_zero_iff (user role : List String) :
    (evaluate user role).missing.length = 0 ↔
      ∀ s ∈ role, normalize_skill s ∈ user.map normalize_skill := by
  rw [evaluate_missing_eq, List.length_eq_zero, List.filter_eq_nil_iff]
  constructor
  · intro h s hs
    have := h s hs
    simp only [Bool.not_eq_true', Bool.not_eq_false] at this
    exact (contains_eq_true_iff_mem _ _).mp this
  · intro h s hs
    simp only [Bool.not_eq_true', Bool.not_eq_false]
    exact (contains_eq_true_iff_mem _ _).mpr (h s hs)

/-- The number of missing skills equals the number of role skills exactly when
no normalized role skill occurs among the normalized user skills. -/
theorem missing_len_full_iff (user role : List String) :
    (evaluate user role).missing.length = role.length ↔
      ∀ s ∈ role, normalize_skill s ∉ user.map normalize_skill := by
  rw [evaluate_missing_eq]
  constructor
  · intro h s hs
    have hfe : role.filter _ = role := ((List.filter_sublist role).eq_of_length h)
    have := (List.filter_eq_self.mp hfe) s hs
    simp only [Bool.not_eq_true'] at this
    intro hmem
    rw [← contains_eq_true_iff_mem] at hmem
    rw [this] at hmem
    exact Bool.false_ne_true hmem
  · intro h
    have : role.filter (fun s => !((user.map normalize_skill).contains (normalize_skill s)))
        = role := by
      rw [List.filter_eq_self]
      intro s hs
      simp only [Bool.not_eq_true']
      by_contra hc
      simp only [Bool.not_eq_false] at hc
      exact h s hs ((contains_eq_true_iff_mem _ _).mp hc)
    rw [this]

/-- C1 (amended): for every user skill set and role skill list the match score
is an integer in [0,100]; full coverage forces 100 and, on a nonempty role
skill list, zero coverage forces 0; when the role lists at most 199 skills the
two extremes are exact characterizations. -/
theorem evaluate_score_range_and_extremes (user role : List String) :
    (evaluate user role).match_score ≤ 100
    ∧ ((∀ s ∈ role, normalize_skill s ∈ user.map normalize_skill) →
        (evaluate user role).match_score = 100)
    ∧ (role ≠ [] → (∀ s ∈ role, normalize_skill s ∉ user.map normalize_skill) →
        (evaluate user role).match_score = 0)
    ∧ (role.length ≤ 199 →
        ((evaluate user role).match_score = 100 ↔
          ∀ s ∈ role, normalize_skill s ∈ user.map normalize_skill))
    ∧ (role.length ≤ 199 → role ≠ [] →
        ((evaluate user role).match_score = 0 ↔
          ∀ s ∈ role, normalize_skill s ∉ user.map normalize_skill)) := by
  have hscore := evaluate_score_eq user role
  have hmn : (evaluate user role).missing.length ≤ role.length := by
    rw [evaluate_missing_eq]; exact List.length_filter_le _ _
  set m := (evaluate user role).missing.length with hm
  set n := role.length with hn
  have ht : 0 < max n 1 := by omega
  have htn : role ≠ [] → max n 1 = n := by
    intro h
    have : 0 < n := by rw [hn]; exact List.length_pos.mpr h
    omega
  have hupper : (evaluate user role).match_score ≤ 100 := by
    rw [hscore]
    exact pyRoundDiv_le ht (by omega)
  have hfull : m = 0 → (evaluate user role).match_score = 100 := by
    intro h0
    rw [hscore, h0, Nat.sub_zero, mul_comm]
    exact pyRoundDiv_mul_self ht
  have hzero : role ≠ [] → m = n → (evaluate user role).match_score = 0 := by
    intro hne hmn'
    have hpos : 0 < n := by rw [hn]; exact List.length_pos.mpr hne
    rw [hscore, htn hne, hmn', Nat.sub_self, zero_mul]
    have := @pyRoundDiv_le 0 n 0 hpos (by omega)
    omega
  have hconv100 : n ≤ 199 → (evaluate user role).match_score = 100 → m = 0 := by
    intro hb hs
    by_contra hm1
    have hm1' : 1 ≤ m := by omega
    have hne : role ≠ [] := by
      intro hcon
      rw [hcon] at hn
      simp at hn
      omega
    have h99 : (evaluate user role).match_score ≤ 99 := by
      rw [hscore, htn hne]
      exact pyRoundDiv_le_of_lt_half (by omega) (by omega)
    omega
  have hconv0 : n ≤ 199 → role ≠ [] → (evaluate user role).match_score = 0 → m = n := by
    intro hb hne hs
    by_contra hmn'
    have hlt : m < n := by omega
    have h1 : 1 ≤ (evaluate user role).match_score := by
      rw [hscore, htn hne]
      exact @pyRoundDiv_ge_of_gt_half _ _ 0 (by omega) (by omega)
    omega
  refine ⟨hupper, ?_, ?_, ?_, ?_⟩
  · intro h
    exact hfull ((missing_len_zero_iff user role).mpr h)
  · intro hne h
    exact hzero hne ((missing_len_full_iff user role).mpr h)
  · intro hb
    constructor
    · intro hs
      exact (missing_len_zero_iff user role).mp (hconv100 hb hs)
    · intro h
      exact hfull ((missing_len_zero_iff user role).mpr h)
  · intro hb hne
    constructor
    · intro hs
      exact (missing_len_full_iff user role).mp (hconv0 hb hne hs)
    · intro h
      exact hzero hne ((missing_len_full_iff user role).mpr h)

set_option maxRecDepth 10000 in
/-- C1 counterexample: the stated biconditionals fail.  With an empty role
skill list no role skill is present, yet the score is 100, not 0; with 200
copies of a known skill and one unknown skill the score rounds to 100 though
a skill is missing; with only the unknown skill known the score rounds to 0
though a skill is present. -/
theorem evaluate_score_iff_counterexample :
    ((evaluate [] ([] : List String)).match_score = 100
      ∧ ∀ s ∈ ([] : List String), normalize_skill s ∉ ([] : List String).map normalize_skill)
    ∧ ((evaluate ["a"] (List.replicate 200 "a" ++ ["b"])).match_score = 100
      ∧ ¬ ∀ s ∈ List.replicate 200 "a" ++ ["b"],
            normalize_skill s ∈ (["a"].map normalize_skill))
    ∧ ((evaluate ["b"] (List.replicate 200 "a" ++ ["b"])).match_score = 0
      ∧ ¬ ∀ s ∈ List.replicate 200 "a" ++ ["b"],
            normalize_skill s ∉ (["b"].map normalize_skill)) := by
  decide

/-- Witness for the amended C1 theorem at concrete inputs. -/
theorem evaluate_score_range_and_extremes_witness :
    (evaluate ["sql"] ["SQL"]).match_score = 100
    ∧ (evaluate ["x"] ["SQL"]).match_score = 0 :=
  ⟨(evaluate_score_range_and_extremes ["sql"] ["SQL"]).2.1 (by decide),
   (evaluate_score_range_and_extremes ["x"] ["SQL"]).2.2.1 (by decide) (by decide)⟩

/-- Modelled from the spec, for comparison with the code: section 4.3 defines
match_score = round(100 * (total - missing_count) / max(total, 1)) with total
the count of role skills. -/
def spec_match_score (total missing_count : ℕ) : ℕ :=
  pyRoundDiv ((total - missing_count) * 100) (max total 1)

/-- C2 (amended): the match score agrees with the spec formula whenever the
role declares at least one skill; a role declaring zero skills scores 100 with
an empty missing list; and the data-analyst scenario yields missing Python
and score 67. -/
theorem evaluate_score_formula (user role : List String) :
    (role ≠ [] →
      (evaluate user role).match_score
        = spec_match_score role.length (evaluate user role).missing.length)
    ∧ (role = [] →
      (evaluate user role).match_score = 100 ∧ (evaluate user role).missing = [])
    ∧ evaluate ["sql", " excel "] ["SQL", "Excel", "Python"]
        = { missing := ["Python"], match_score := 67 } := by
  refine ⟨?_, ?_, by decide⟩
  · intro hne
    have hmax : max role.length 1 = role.length := by
      have : 0 < role.length := List.length_pos.mpr hne
      omega
    rw [evaluate_score_eq, spec_match_score, hmax]
  · intro h
    subst h
    have hm : (evaluate user []).missing = [] := by
      rw [evaluate_missing_eq]
      rfl
    refine ⟨?_, hm⟩
    rw [evaluate_score_eq, hm]
    decide

/-- C2 counterexample: at a role declaring zero skills the code scores 100
with no missing skills, while the spec formula evaluates to 0 there. -/
theorem evaluate_score_formula_counterexample :
    (evaluate [] ([] : List String)).match_score = 100
    ∧ (evaluate [] ([] : List String)).missing.length = 0
    ∧ spec_match_score 0 0 = 0 := by
  decide

/-- Witness for the amended C2 theorem at a concrete nonempty role. -/
theorem evaluate_score_formula_witness :
    (evaluate ["sql"] ["SQL", "Python"]).match_score
      = spec_match_score 2 (evaluate ["sql"] ["SQL", "Python"]).missing.length :=
  (evaluate_score_formula ["sql"] ["SQL", "Python"]).1 (by decide)

theorem count_filter_ite (l : List String) (p : String → Bool) (a : String) :
    (l.filter p).count a = if p a then l.count a else 0 := by
  by_cases hpa : p a = true
  · rw [if_pos hpa, List.count_filter hpa]
  · have hpa' : p a = false := by
      cases h : p a
      · rfl
      · exact absurd h hpa
    rw [hpa', if_neg (by simp)]
    rw [List.count_eq_zero]
    intro hmem
    have := (List.mem_filter.mp hmem).2
    rw [hpa'] at this
    exact Bool.false_ne_true this

theorem evalresult_ext {a b : EvalResult} (h1 : a.missing = b.missing)
    (h2 : a.match_score = b.match_score) : a = b := by
  cases a; cases b; simp_all

/-- Two user skill lists whose normalized forms have the same membership are
indistinguishable to the evaluator. -/
theorem evaluate_user_congr (u₁ u₂ role : List String)
    (h : ∀ x, ((u₁.map normalize_skill).contains x) = ((u₂.map normalize_skill).contains x)) :
    evaluate u₁ role = evaluate u₂ role := by
  have hmiss : (evaluate u₁ role).missing = (evaluate u₂ role).missing := by
    rw [evaluate_missing_eq, evaluate_missing_eq]
    exact List.filter_congr (fun s _ => by rw [h])
  refine evalresult_ext hmiss ?_
  rw [evaluate_score_eq, evaluate_score_eq, hmiss]

/-- C3: deduplicating the user skill list never changes the evaluation; the
missing list evaluates each role skill occurrence independently against the
normalized user collection, so it is the subsequence of the role list (role
order and original spelling kept) of skills whose normalized form is absent,
and a duplicated absent role skill shows up with its full multiplicity. -/
theorem evaluate_duplicate_handling (user role : List String) :
    evaluate user.dedup role = evaluate user role
    ∧ (evaluate user role).missing
        = role.filter (fun s => !((user.map normalize_skill).contains (normalize_skill s)))
    ∧ List.Sublist (evaluate user role).missing role
    ∧ ∀ s, (evaluate user role).missing.count s
        = if normalize_skill s ∈ user.map normalize_skill then 0 else role.count s := by
  refine ⟨?_, evaluate_missing_eq user role, ?_, ?_⟩
  · exact evaluate_user_congr user.dedup user role
      (fun x => contains_map_dedup user normalize_skill x)
  · rw [evaluate_missing_eq]
    exact List.filter_sublist role
  · intro s
    rw [evaluate_missing_eq, count_filter_ite]
    by_cases hmem : normalize_skill s ∈ user.map normalize_skill
    · have hc : (user.map normalize_skill).contains (normalize_skill s) = true :=
        (contains_eq_true_iff_mem _ _).mpr hmem
      simp [hc, hmem]
    · have hc : (user.map normalize_skill).contains (normalize_skill s) = false := by
        cases h : (user.map normalize_skill).contains (normalize_skill s)
        · rfl
        · exact absurd ((contains_eq_true_iff_mem _ _).mp h) hmem
      simp [hc, hmem]

theorem strContainsAux_nil (h : List Char) : strContainsAux [] h = true := by
  induction h with
  | nil => rfl
  | cons c t ih => simp [strContainsAux, ih, List.isPrefixOf]

/-- The empty string occurs in every string, as for the Python in operator. -/
theorem pyIn_empty (hay : String) : pyIn "" hay = true :=
  strContainsAux_nil hay.data

/-- C4 (amended): with an empty category filter, the retained roles are
exactly those in which the trimmed query occurs case-insensitively in the
title, the description or some skill; catalog order is preserved; the empty
query keeps every role. -/
theorem filter_roles_query_characterization (roles_catalog : List Role) (q : String) :
    (∀ r, r ∈ filter_roles roles_catalog q "" ↔
      r ∈ roles_catalog ∧
        (pyIn (pyLower (pyStrip q)) (pyLower r.title) = true
          ∨ pyIn (pyLower (pyStrip q)) (pyLower r.description) = true
          ∨ ∃ sk ∈ r.top_skills, pyIn (pyLower (pyStrip q)) (pyLower sk) = true))
    ∧ List.Sublist (filter_roles roles_catalog q "") roles_catalog
    ∧ filter_roles roles_catalog "" "" = roles_catalog := by
  have hcat : (pyLower (pyStrip "") == "") = true := by decide
  refine ⟨?_, ?_, ?_⟩
  · intro r
    simp only [filter_roles, List.mem_filter, hcat, Bool.true_or, Bool.and_true]
    constructor
    · rintro ⟨hmem, hcond⟩
      refine ⟨hmem, ?_⟩
      by_cases hq : pyLower (pyStrip q) = ""
      · exact Or.inl (hq ▸ pyIn_empty (pyLower r.title))
      · have hq' : (pyLower (pyStrip q) == "") = false := by
          cases h : (pyLower (pyStrip q) == "")
          · rfl
          · exact absurd (eq_of_beq h) hq
        rw [hq'] at hcond
        simp only [Bool.false_or, Bool.or_eq_true, List.any_eq_true] at hcond
        tauto
    · rintro ⟨hmem, hcond⟩
      refine ⟨hmem, ?_⟩
      simp only [Bool.or_eq_true, List.any_eq_true]
      tauto
  · simp only [filter_roles]
    exact List.filter_sublist _
  · simp only [filter_roles]
    rw [List.filter_eq_self]
    intro r _
    simp [hcat]

/-- C4 counterexample: with the query having a trailing blank, a role whose
skill list holds SQL is retained, yet the raw query occurs case-insensitively
in none of its title, description or skills. -/
theorem filter_roles_untrimmed_query_counterexample :
    filter_roles
        [{ id := "r1", title := "T", category := "C", description := "D",
           top_skills := ["SQL"] }] "sql " ""
      = [{ id := "r1", title := "T", category := "C", description := "D",
           top_skills := ["SQL"] }]
    ∧ pyIn (pyLower "sql ") (pyLower "T") = false
    ∧ pyIn (pyLower "sql ") (pyLower "D") = false
    ∧ ∀ sk ∈ ["SQL"], pyIn (pyLower "sql ") (pyLower sk) = false := by
  decide

/-- C5: a library entry is recommended exactly when its normalized skills meet
the missing set or the normalized role category occurs among its tags; the
result is the first at most 4 qualifying entries in library order, so its
length never exceeds 4. -/
theorem recommended_certs_characterization (lib : List Cert) (category : String)
    (missing_skills : List String) :
    (recommended_certs lib category missing_skills).length ≤ 4
    ∧ recommended_certs lib category missing_skills
        = ((lib.filter (cert_qualifies (pyLower (pyStrip category))
              ((missing_skills.map normalize_skill).dedup))).take 4).map
            (mk_recommended_cert category ((missing_skills.map normalize_skill).dedup)) := by
  constructor
  · simp only [recommended_certs]
    exact List.length_take_le _ _
  · simp only [recommended_certs]
    rw [filterMap_guard, List.map_take]

/-- C6: the certification, learning-path and job-listing computations are
functions of the role, the missing skills and the stored location alone: two
profiles agreeing on location, evaluated against the same role with the same
resulting missing list, yield identical recommendation outputs, reason
strings included. -/
theorem recommendations_deterministic (role : Role) (p₁ p₂ : Profile)
    (hloc : p₁.location = p₂.location)
    (hmiss : (evaluate p₁.user_skills role.top_skills).missing
        = (evaluate p₂.user_skills role.top_skills).missing) :
    (results_obj p₁ role).recommended_certs = (results_obj p₂ role).recommended_certs
    ∧ (results_obj p₁ role).recommended_learning = (results_obj p₂ role).recommended_learning
    ∧ (results_obj p₁ role).job_listings = (results_obj p₂ role).job_listings := by
  refine ⟨?_, ?_, ?_⟩
  · simp only [results_obj]
    rw [hmiss]
  · simp only [results_obj]
    rw [hmiss]
  · simp only [results_obj, job_listings, hloc]

/-- Witness for C6: profiles differing in degree and in skill spelling but
agreeing on location and missing skills get identical recommendations. -/
theorem recommendations_deterministic_witness :
    (results_obj { degree := "BS", location := "NYC", user_skills := ["sql"] }
        { id := "da", title := "Data Analyst", category := "Data", description := "d",
          top_skills := ["SQL", "Python"] }).recommended_certs
      = (results_obj { degree := "PhD", location := "NYC", user_skills := ["SQL "] }
          { id := "da", title := "Data Analyst", category := "Data", description := "d",
            top_skills := ["SQL", "Python"] }).recommended_certs :=
  (recommendations_deterministic
    { id := "da", title := "Data Analyst", category := "Data", description := "d",
      top_skills := ["SQL", "Python"] }
    { degree := "BS", location := "NYC", user_skills := ["sql"] }
    { degree := "PhD", location := "NYC", user_skills := ["SQL "] }
    rfl (by decide)).1

theorem checkRole_eq_none_iff (r : RawRole) :
    checkRole r = none ↔ (r.lacksRequired = false ∧ r.badTopSkills = false) := by
  unfold checkRole
  cases h1 : r.lacksRequired <;> cases h2 : r.badTopSkills <;> simp [h1, h2]

theorem checkRole_eq_some (r : RawRole) (e : LoadError) (h : checkRole r = some e) :
    e = .validationError r.errId ∧ (r.lacksRequired || r.badTopSkills) = true := by
  unfold checkRole at h
  cases h1 : r.lacksRequired
  · cases h2 : r.badTopSkills
    · rw [h1, h2] at h
      simp at h
    · rw [h1, h2] at h
      simp at h
      exact ⟨h.symm, by simp [h1, h2]⟩
  · rw [h1] at h
    simp at h
    exact ⟨h.symm, by simp [h1]⟩

/-- C7: loading fails with the file-not-found error exactly when the store is
absent; it fails with a validation error exactly when some record lacks a
required key or carries a non-list top_skills value, the error carrying the
id of an offending record; otherwise the full record sequence is returned. -/
theorem load_roles_contract (store : Option (List RawRole)) :
    (load_roles store = .error .fileNotFound ↔ store = none)
    ∧ (∀ l, store = some l →
        ((∃ v, load_roles store = .error (.validationError v)) ↔
          ∃ r ∈ l, (r.lacksRequired || r.badTopSkills) = true))
    ∧ (∀ l v, store = some l → load_roles store = .error (.validationError v) →
        ∃ r ∈ l, (r.lacksRequired || r.badTopSkills) = true ∧ v = r.errId)
    ∧ (∀ l, load_roles store = .ok l ↔
        (store = some l ∧ ∀ r ∈ l, r.lacksRequired = false ∧ r.badTopSkills = false)) := by
  cases store with
  | none =>
    refine ⟨by simp [load_roles], ?_, ?_, ?_⟩
    · intro l hl
      exact absurd hl (by simp)
    · intro l v hl
      exact absurd hl (by simp)
    · intro l
      simp [load_roles]
  | some l0 =>
    cases hfs : l0.findSome? checkRole with
    | none =>
      have hallgood : ∀ r ∈ l0, r.lacksRequired = false ∧ r.badTopSkills = false := by
        intro r hr
        exact (checkRole_eq_none_iff r).mp (List.findSome?_eq_none_iff.mp hfs r hr)
      refine ⟨by simp [load_roles, hfs], ?_, ?_, ?_⟩
      · intro l hl
        injection hl with hl
        subst hl
        constructor
        · rintro ⟨v, hv⟩
          simp [load_roles, hfs] at hv
        · rintro ⟨r, hr, hbad⟩
          have := hallgood r hr
          rw [this.1, this.2] at hbad
          simp at hbad
      · intro l v hl hres
        simp [load_roles, hfs] at hres
      · intro l
        constructor
        · intro h
          simp only [load_roles, hfs] at h
          injection h with h
          subst h
          exact ⟨rfl, hallgood⟩
        · rintro ⟨hl, _⟩
          injection hl with hl
          subst hl
          simp [load_roles, hfs]
    | some e =>
      obtain ⟨r, hr, hcr⟩ := List.exists_of_findSome?_eq_some hfs
      obtain ⟨hval, hbad⟩ := checkRole_eq_some r e hcr
      refine ⟨by simp [load_roles, hfs, hval], ?_, ?_, ?_⟩
      · intro l hl
        injection hl with hl
        subst hl
        constructor
        · intro _
          exact ⟨r, hr, hbad⟩
        · intro _
          exact ⟨r.errId, by simp [load_roles, hfs, hval]⟩
      · intro l v hl hres
        injection hl with hl
        subst hl
        simp only [load_roles, hfs, hval] at hres
        injection hres with hres
        injection hres with hres
        exact ⟨r, hr, hbad, hres.symm⟩
      · intro l
        constructor
        · intro h
          simp [load_roles, hfs, hval] at h
        · rintro ⟨hl, hall⟩
          injection hl with hl
          subst hl
          have := hall r hr
          rw [this.1, this.2] at hbad
          simp at hbad

/-- A well-formed raw catalog record used by the loader witness. -/
def sample_raw_role : RawRole :=
  [("id", .jstr "r1"), ("title", .jstr "t"), ("category", .jstr "c"),
   ("description", .jstr "d"), ("top_skills", .jarr [])]

/-- Witness for C7: a present store whose single record carries the five
required keys and a list top_skills loads successfully. -/
theorem load_roles_contract_witness :
    load_roles (some [sample_raw_role]) = .ok [sample_raw_role] :=
  ((load_roles_contract (some [sample_raw_role])).2.2.2 [sample_raw_role]).mpr
    ⟨rfl, by decide⟩

/-- C8: with a profile present and a nonblank selected role id resolving to no
catalog role, the results route pops the stale selection, redirects to the
role listing rather than erroring (the outcome type has no error at all), and
leaves the stored profile untouched. -/
theorem results_route_self_heal (s : SessionState) (roles_catalog : List Role)
    (p : Profile) (rid : String) (hp : s.profile = some p)
    (hsel : s.selected_role_id = some rid) (hblank : rid ≠ "")
    (hfind : find_role_by_id rid roles_catalog = none) :
    results_route s roles_catalog
      = (.redirect .rolesPage, { profile := some p, selected_role_id := none }) := by
  cases s with
  | mk sprof ssel =>
    simp only at hp hsel
    subst hp
    subst hsel
    simp [results_route, hblank, hfind]

/-- Witness for C8 at a concrete stale session. -/
theorem results_route_self_heal_witness :
    results_route
        { profile := some { degree := "d", location := "l", user_skills := ["x"] },
          selected_role_id := some "ghost" } []
      = (.redirect .rolesPage,
          { profile := some { degree := "d", location := "l", user_skills := ["x"] },
            selected_role_id := none }) :=
  results_route_self_heal _ [] _ "ghost" rfl rfl (by decide) rfl

theorem filterMap_strip_guard (l : List (List Char)) (f : List Char → List Char) :
    (l.filterMap fun piece => if f piece = [] then none else some (String.mk (f piece)))
      = (((l.map f).filter (fun x => x ≠ [])).map String.mk) := by
  induction l with
  | nil => rfl
  | cons a t ih =>
    by_cases h : f a = [] <;>
      simp [List.filterMap_cons, List.filter_cons, h, ih]

/-- C9: submitting the profile form always stores a fresh profile independent
of the prior session; the stored skills are exactly the comma-separated
pieces of the stripped skills field, each stripped, with empty pieces
dropped, in order and in their original spelling; the scenario input is
stored as SQL and Python. -/
theorem submit_profile_skills (form : FormData) (s₁ s₂ : SessionState) :
    (submit_profile form s₁).profile = (submit_profile form s₂).profile
    ∧ (∃ p, (submit_profile form s₁).profile = some p
        ∧ p.user_skills
            = (((pySplitComma (pystrip form.skills.data)).map pystrip).filter
                (fun piece => piece ≠ [])).map String.mk
        ∧ p.degree = pyStrip form.degree ∧ p.location = pyStrip form.location)
    ∧ (submit_profile { degree := "", location := "", skills := "SQL, , Python,  " } s₁).profile
        = some { degree := "", location := "", user_skills := ["SQL", "Python"] } := by
  refine ⟨rfl, ?_, by simp [submit_profile]; decide⟩
  refine ⟨_, rfl, ?_, rfl, rfl⟩
  simp only [submit_profile]
  exact filterMap_strip_guard _ _

/-- C10: when the stored location is the empty string every synthesized job
listing is located Remote; a nonempty stored location is used for the first
two listings while the third stays Remote. -/
theorem job_listings_location (role : Role) (profile_data : Profile) :
    (job_listings role profile_data).map (fun j => j.location)
      = (if profile_data.location = "" then ["Remote", "Remote", "Remote"]
         else [profile_data.location, profile_data.location, "Remote"]) := by
  by_cases h : profile_data.location = "" <;> simp [job_listings, h]
